import Mathlib

/-!
# Verification of `cohistory.py` (Codex Conversation History Viewer)

A shallow embedding of the program's core components, translated from
`src/cohistory.py`:

* the JSON-line session-file parsing pipeline (`_read_session_metadata`,
  `_extract_text`, `parse_conversation`),
* the date/session discovery functions (`get_dates`, `get_sessions`),
* the interactive menu state machine (`display_menu` key handling),
* the raw-terminal key reader (`get_key`).

Python values parsed from JSON are modelled by the inductive `Json`;
a line of a session file is modelled by `Line` (blank / malformed /
parsed record), abstracting the behaviour of `json.loads`.  Fallible
Python code (uncaught exceptions) is modelled with `Option`: a `none`
result marks an execution on which the Python original raises.
-/

namespace Cohistory

/-- A Python value as produced by `json.loads`: `null`, booleans, integers
(floats do not occur in the claims and are omitted), strings, lists and
dicts.  Dicts coming out of `json.loads` have pairwise-distinct keys. -/
inductive Json where
  | null : Json
  | bool (b : Bool) : Json
  | num (n : Int) : Json
  | str (s : String) : Json
  | arr (items : List Json) : Json
  | obj (fields : List (String × Json)) : Json

/-- Python truthiness (`bool(v)`) of a JSON value: `None`, `False`, `0`,
`""`, `[]` and `\x7b\x7d` are falsy, everything else truthy. -/
def Json.truthy : Json → Bool
  | .null => false
  | .bool b => b
  | .num n => n != 0
  | .str s => s != ""
  | .arr items => !items.isEmpty
  | .obj fields => !fields.isEmpty

/-- Python `d.get(k)` on a dict with fields `fields`: `some v` when the key
is present, `none` when absent (Python returns `None`; the call sites treat
an absent key and a stored `None` alike, both are modelled as `none` with
a stored JSON `null` never occurring). -/
def jget (fields : List (String × Json)) (k : String) : Option Json :=
  fields.lookup k

/-- The string content of a JSON value, when it is a string. -/
def Json.asStr : Json → Option String
  | .str s => some s
  | _ => none

/-- `d.get(k)` when the caller goes on to require a string value:
`some s` exactly when the key is present with the string value `s`. -/
def jgetStr (fields : List (String × Json)) (k : String) : Option String :=
  (jget fields k).bind Json.asStr

/-- One line of a session `.jsonl` file, as seen through `json.loads`:
`blank` is a line whose `strip()` is empty, `malformed` a non-blank line on
which `json.loads` raises `JSONDecodeError`, and `record j` a non-blank
line parsing to the value `j`. -/
inductive Line where
  | blank : Line
  | malformed : Line
  | record (j : Json) : Line

/-- The contents of a session file as the program sees it: `none` when
opening/reading the file raises (I/O error), otherwise the list of lines. -/
abbrev SessionFile := Option (List Line)

/-- The dict built by `_read_session_metadata`.  The empty metadata (the
Python `\x7b\x7d`) and a dict whose values are all `None` behave
identically at every call site (`metadata.get(...)`), so both are the
all-`none` value `emptyMeta`. -/
structure SessionMetadata where
  timestamp : Option Json
  cwd : Option Json
  originator : Option Json

/-- The empty metadata value returned on every failure path. -/
def emptyMeta : SessionMetadata := ⟨none, none, none⟩

/-- Python `a or b` on two `d.get(...)` results: the first operand when it
is present and truthy, otherwise the second. -/
def pyOr (a b : Option Json) : Option Json :=
  match a with
  | some v => if v.truthy then some v else b
  | none => b

/-- The field list of a JSON value when it is a dict
(`isinstance(payload, dict)`). -/
def Json.objFields : Json → Option (List (String × Json))
  | .obj fields => some fields
  | _ => none

/-- What `_read_session_metadata` (cohistory.py lines 248-258) makes of
one first line: a blank line, an unparseable line, a non-dict record
(whose `data.get` raises, caught), a record of `type` other than
`"session_meta"`, or a non-dict `payload` (whose `payload.get` raises,
caught) all give the empty dict; otherwise the metadata is drawn from the
payload, with the record's top-level `timestamp` as the `or`-fallback. -/
def metaOfLine : Line → SessionMetadata
  | .record (.obj fields) =>
    if jgetStr fields "type" = some "session_meta" then
      (((jget fields "payload").getD (.obj [])).objFields).elim emptyMeta
        fun pfields =>
          ⟨pyOr (jget pfields "timestamp") (jget fields "timestamp"),
           jget pfields "cwd",
           jget pfields "originator"⟩
    else emptyMeta
  | _ => emptyMeta

/-- `CodexHistoryViewer._read_session_metadata` (cohistory.py lines
242-260): read the file's **first** line (on an empty file `readline()`
returns `""`, which is blank), and extract metadata from it per
`metaOfLine`.  Every exception (I/O error, `JSONDecodeError`, the
`AttributeError` from calling `.get` on a non-dict record or payload) is
caught by the `except` clause and yields the empty dict, so the function
is total. -/
def _read_session_metadata : SessionFile → SessionMetadata
  | none => emptyMeta
  | some lines => metaOfLine (lines.head?.getD .blank)

/-! ## Text extraction (`_extract_text`) -/

/-- The whitespace set of Python's `str.strip()` for the characters that
can occur here (Python additionally strips some unicode whitespace). -/
def pySpace (c : Char) : Bool :=
  c = ' ' ∨ c = '\t' ∨ c = '\n' ∨ c = '\r' ∨ c = '\x0b' ∨ c = '\x0c'

/-- Python `s.strip()`. -/
def pyStrip (s : String) : String :=
  ⟨((s.data.dropWhile pySpace).reverse.dropWhile pySpace).reverse⟩

/-- Python `s.startswith(pre)`. -/
def pyStartsWith (s pre : String) : Bool :=
  pre.data.isPrefixOf s.data

/-- Python `s.endswith(post)`. -/
def pyEndsWith (s post : String) : Bool :=
  post.data.isSuffixOf s.data

/-- The numeric value of a digit string (callers check `Char.isDigit`). -/
def digitsToNat (cs : List Char) : Nat :=
  cs.foldl (fun a c => a * 10 + (c.toNat - 48)) 0

/-- The `parts` list accumulated by `_extract_text` (cohistory.py lines
265-278): for a plain-string content the string itself; for a list
content, per element: a dict of `type` in
`\x7b"input_text", "output_text", "text"\x7d` contributes its `text` value
when that value is truthy, a plain string element contributes itself, and
every other element contributes nothing. -/
def contentPart (item : Json) : Option Json :=
  match item with
  | .obj fields =>
    (jgetStr fields "type").bind fun t =>
      if t = "input_text" ∨ t = "output_text" ∨ t = "text" then
        (jget fields "text").bind fun tv => if tv.truthy then some tv else none
      else none
  | .str s => some (.str s)
  | _ => none

/-- See `contentPart` for the treatment of one list element. -/
def collectParts : Json → List Json
  | .str s => [.str s]
  | .arr items => items.filterMap contentPart
  | _ => []

/-- Python `"\n".join(part for part in parts if part).strip()`: keep the
truthy parts; `join` raises `TypeError` if any kept part is not a string
(modelled as `none`), otherwise join with newlines and strip. -/
def joinParts (parts : List Json) : Option String :=
  let kept := parts.filter Json.truthy
  if kept.all fun p => (Json.asStr p).isSome then
    some (pyStrip (String.intercalate "\n"
      (kept.map fun p => (Json.asStr p).getD "")))
  else none

/-- `CodexHistoryViewer._extract_text` (cohistory.py lines 262-280):
`some` of the extracted text, `none` when the Python original raises
(a truthy non-string `text` value reaching `"\n".join`). -/
def _extract_text (content : Json) : Option String :=
  joinParts (collectParts content)

/-! ## Conversation parsing (`parse_conversation`) -/

/-- A chat message as stored by `parse_conversation`: the dict
`\x7b"role": role, "content": text, "timestamp": data.get("timestamp", "")\x7d`. -/
structure Message where
  role : String
  content : String
  timestamp : Json

/-- What the loop body of `parse_conversation` does with one line:
`skip` (a `continue`), `msg m` (a message is appended), or `err` (an
exception other than `JSONDecodeError` escapes the loop body: `data.get`
on a non-dict record, or a `TypeError` inside `_extract_text`). -/
inductive LineRes where
  | skip : LineRes
  | msg (m : Message) : LineRes
  | err : LineRes

/-- The loop body of `parse_conversation` (cohistory.py lines 288-321):
skip blank and unparseable lines; skip records whose `type` is not
`"response_item"`, whose `payload` is not a dict, whose payload `type` is
not `"message"`, whose `role` is not `"user"`/`"assistant"`, or whose
extracted text is empty; a non-dict record (`data.get` raises) or a
failing `_extract_text` is the `err` outcome. -/
def classifyLine : Line → LineRes
  | .blank => .skip
  | .malformed => .skip
  | .record (.obj fields) =>
    if jgetStr fields "type" = some "response_item" then
      (((jget fields "payload").getD (.obj [])).objFields).elim .skip fun pfields =>
        if jgetStr pfields "type" = some "message" then
          if jgetStr pfields "role" = some "user" ∨
             jgetStr pfields "role" = some "assistant" then
            (_extract_text ((jget pfields "content").getD .null)).elim .err fun t =>
              if t = "" then .skip
              else .msg ⟨(jgetStr pfields "role").getD "", t,
                         (jget fields "timestamp").getD (.str "")⟩
          else .skip
        else .skip
    else .skip
  | .record _ => .err

/-- Effect of one loop iteration's outcome on the accumulated result. -/
def LineRes.step (r : LineRes) (rest : Option (List Message)) :
    Option (List Message) :=
  match r with
  | .skip => rest
  | .msg m => rest.map (m :: ·)
  | .err => none

/-- The line loop of `parse_conversation`: `none` when an exception
escapes the loop (it is then caught by the function's outer `except`). -/
def parseLines : List Line → Option (List Message)
  | [] => some []
  | l :: ls => (classifyLine l).step (parseLines ls)

/-- `CodexHistoryViewer.parse_conversation` (cohistory.py lines 282-326):
an I/O error on the file, or any exception escaping the line loop, is
caught by the outer `except`, an error message is printed, and the
result is the empty list. -/
def parse_conversation (file : SessionFile) : List Message :=
  match file with
  | none => []
  | some lines => (parseLines lines).getD []

/-! ## The interactive menu (`InteractiveMenu.display_menu`) -/

/-- The quantities fixed by the prologue of `display_menu` (cohistory.py
lines 70-79) for the whole menu invocation: the item count, the effective
`items_per_page`, the effective `paginate` flag and `total_pages`.
All involved Python ints are non-negative, so `Nat` is faithful. -/
structure MenuConfig where
  totalItems : Nat
  itemsPerPage : Nat
  paginate : Bool
  totalPages : Nat
deriving DecidableEq, Repr

/-- The prologue of `display_menu`: with `paginate` requested and more
items than fit one page, `total_pages = (total_items + items_per_page - 1)
// items_per_page`; otherwise pagination is switched off, there is one
page, and `items_per_page` becomes `total_items` (or 1 when empty). -/
def menuSetup (totalItems : Nat) (paginate : Bool) (itemsPerPage : Nat) :
    MenuConfig :=
  if paginate ∧ itemsPerPage < totalItems then
    ⟨totalItems, itemsPerPage, true, (totalItems + itemsPerPage - 1) / itemsPerPage⟩
  else
    ⟨totalItems, if 0 < totalItems then totalItems else 1, false, 1⟩

/-- The mutable menu state: `self.selected_index` and `current_page`,
both reset to 0 at the start of each `display_menu` call. -/
structure MenuState where
  selected : Nat
  page : Nat
deriving DecidableEq, Repr

/-- The effect of one key on the menu loop: redraw with a new state
(the loop continues), return the selected index, or quit the process. -/
inductive MenuStep where
  | redraw (s : MenuState) : MenuStep
  | select (i : Nat) : MenuStep
  | quit : MenuStep
deriving DecidableEq, Repr

/-- One iteration of the `display_menu` event loop (cohistory.py lines
102-142): recompute `start_idx`/`end_idx`, then dispatch on the key read.
Python's int subtraction can reach `-1` in `end_idx - 1`,
`total_items - 1` and `new_end - 1`; truncated `Nat` subtraction gives the
same branch outcomes because those values are only compared against (or
`max`-ed with) quantities that are then also `0` — each spot is noted
below. -/
def menuStep (cfg : MenuConfig) (s : MenuState) (key : String) : MenuStep :=
  let startIdx := s.page * cfg.itemsPerPage
  let endIdx := min (startIdx + cfg.itemsPerPage) cfg.totalItems
  if key = "\x1b[A" then  -- Up arrow
    if startIdx < s.selected then .redraw ⟨s.selected - 1, s.page⟩
    else if cfg.paginate ∧ 0 < s.page then
      let newStart := (s.page - 1) * cfg.itemsPerPage
      let newEnd := min (newStart + cfg.itemsPerPage) cfg.totalItems
      -- Python `max(new_start, new_end - 1)`: for `new_end = 0` Python
      -- takes `max(new_start, -1) = new_start`, as does Nat subtraction.
      .redraw ⟨max newStart (newEnd - 1), s.page - 1⟩
    else .redraw s
  else if key = "\x1b[B" then  -- Down arrow
    -- Python `selected < min(end_idx - 1, total_items - 1)`: both sides of
    -- the `min` are `-1` exactly when `end_idx = 0` (hence
    -- `total_items = 0`), and then the comparison is false in Python and
    -- with Nat subtraction alike.
    if s.selected < min (endIdx - 1) (cfg.totalItems - 1) then
      .redraw ⟨s.selected + 1, s.page⟩
    else if cfg.paginate ∧ s.page < cfg.totalPages - 1 then
      .redraw ⟨(s.page + 1) * cfg.itemsPerPage, s.page + 1⟩
    else .redraw s
  else if key = "\x1b[5~" ∧ cfg.paginate then  -- Page Up
    if 0 < s.page then
      .redraw ⟨(s.page - 1) * cfg.itemsPerPage, s.page - 1⟩
    else .redraw s
  else if key = "\x1b[6~" ∧ cfg.paginate then  -- Page Down
    -- `total_pages` is at least 1 on every path of `menuSetup`, so Nat
    -- subtraction in `total_pages - 1` agrees with Python.
    if s.page < cfg.totalPages - 1 then
      .redraw ⟨(s.page + 1) * cfg.itemsPerPage, s.page + 1⟩
    else .redraw s
  else if key = "\r" ∨ key = "\n" then .select s.selected
  else if key = "q" ∨ key = "\x03" then .quit
  else .redraw s

/-- The slice `items[start_idx:end_idx]` rendered by one iteration of the
menu loop (cohistory.py lines 102-104). -/
def visibleItems (items : List String) (cfg : MenuConfig) (s : MenuState) :
    List String :=
  let startIdx := s.page * cfg.itemsPerPage
  let endIdx := min (startIdx + cfg.itemsPerPage) cfg.totalItems
  (items.take endIdx).drop startIdx

/-! ## The raw-mode key reader (`InteractiveMenu.get_key`) -/

/-- The terminal as `get_key` touches it: its input mode (the `termios`
attribute value, opaque here) and the pending standard-input characters.
A `none` in the input stream is a position at which `sys.stdin.read`
raises (for example a closed stream); a short stream models end of file,
where Python's `read` returns fewer characters without raising. -/
structure Term where
  mode : Nat
  input : List (Option Char)
deriving DecidableEq, Repr

/-- The terminal mode installed by `tty.setraw`. -/
def rawMode : Nat := 0

/-- `sys.stdin.read(n)`: consume up to `n` characters; raise (`.error`)
when a failing position is hit. -/
def readStdin (n : Nat) (t : Term) : Except Unit String × Term :=
  let chunk := t.input.take n
  let t' : Term := ⟨t.mode, t.input.drop n⟩
  if chunk.all Option.isSome then
    (.ok ⟨chunk.filterMap id⟩, t')
  else
    (.error (), t')

/-- `InteractiveMenu.get_key` (cohistory.py lines 42-56): save the
terminal attributes, switch to raw mode, read one character, and if it is
the escape byte `\x1b` read exactly two more; the `finally` clause
restores the saved attributes on every exit path, so both components of
the `match` below end by putting `old` back into the terminal mode. -/
def get_key (t : Term) : Except Unit String × Term :=
  let old := t.mode
  let t₁ : Term := ⟨rawMode, t.input⟩
  let (res, t₂) : Except Unit String × Term :=
    match readStdin 1 t₁ with
    | (.error e, u) => (.error e, u)
    | (.ok key, u) =>
      if key = "\x1b" then
        match readStdin 2 u with
        | (.error e, v) => (.error e, v)
        | (.ok more, v) => (.ok (key ++ more), v)
      else (.ok key, u)
  (res, ⟨old, t₂.input⟩)

/-! ## Datetimes

`cohistory.py` manipulates Python `datetime` objects from three sources:
`datetime.fromisoformat` (session metadata timestamps),
`datetime.fromtimestamp` (file modification times, always offset-naive),
and `datetime(year, month, day)` (date directories).  The stdlib is
modelled here: a broken-down time `Tm`, and `PyDatetime` adding the
optional UTC offset that distinguishes offset-aware from offset-naive
datetimes.  Comparing an aware datetime with a naive one raises
`TypeError` in Python — the partiality that matters below. -/

/-- A broken-down time, as carried by a Python `datetime`. -/
structure Tm where
  year : Nat
  month : Nat
  day : Nat
  hour : Nat
  minute : Nat
  second : Nat
  micro : Nat
deriving DecidableEq, Repr

/-- A Python `datetime`: broken-down time plus optional UTC offset in
minutes (`none` = offset-naive, `some o` = offset-aware). -/
structure PyDatetime where
  tm : Tm
  off : Option Int
deriving DecidableEq, Repr

/-- Gregorian leap year, as used by Python's `datetime`. -/
def isLeapYear (y : Nat) : Bool :=
  y % 4 = 0 ∧ (y % 100 ≠ 0 ∨ y % 400 = 0)

/-- Days in a month of the proleptic Gregorian calendar. -/
def daysInMonth (y m : Nat) : Nat :=
  if m = 2 then (if isLeapYear y then 29 else 28)
  else if m = 4 ∨ m = 6 ∨ m = 9 ∨ m = 11 then 30
  else 31

/-- The domain of Python's `datetime(year, month, day)` constructor
(`MINYEAR = 1`, `MAXYEAR = 9999`); outside it the constructor raises
`ValueError`. -/
def validDate (y m d : Int) : Bool :=
  1 ≤ y ∧ y ≤ 9999 ∧ 1 ≤ m ∧ m ≤ 12 ∧ 1 ≤ d ∧
    d ≤ (daysInMonth y.toNat m.toNat : Int)

/-- Day number of a Gregorian date (days since 0000-03-01, the standard
era-based civil-calendar formula); strictly monotone in the calendar
order of valid dates. -/
def daysFromCivil (y m d : Nat) : Nat :=
  let y' := if m ≤ 2 then y - 1 else y
  let era := y' / 400
  let yoe := y' % 400
  let mp := if 2 < m then m - 3 else m + 9
  let doy := (153 * mp + 2) / 5 + d - 1
  let doe := yoe * 365 + yoe / 4 - yoe / 100 + doy
  era * 146097 + doe

/-- The instant a `PyDatetime` denotes, in microseconds (offset applied),
the quantity Python's `datetime` comparison compares. -/
def PyDatetime.instant (dt : PyDatetime) : Int :=
  (((daysFromCivil dt.tm.year dt.tm.month dt.tm.day) * 86400
      + dt.tm.hour * 3600 + dt.tm.minute * 60 + dt.tm.second : Nat) : Int)
      * 1000000 + dt.tm.micro - dt.off.getD 0 * 60000000

/-- Whether `a < b` holds between two Python datetimes: `none` models the
`TypeError` Python raises when one is offset-aware and the other naive. -/
def dtLt (a b : PyDatetime) : Option Bool :=
  if a.off.isSome = b.off.isSome then some (decide (a.instant < b.instant))
  else none

/-! ### `datetime.fromisoformat` -/

/-- Read exactly `k` leading decimal digits. -/
def readFixedNat (k : Nat) (cs : List Char) : Option (Nat × List Char) :=
  let ds := cs.take k
  if ds.length = k ∧ ds.all Char.isDigit then
    some (ds.foldl (fun a c => a * 10 + (c.toNat - 48)) 0, cs.drop k)
  else none

/-- Require the next character to be `c`. -/
def expectChar (c : Char) : List Char → Option (List Char)
  | x :: rest => if x = c then some rest else none
  | [] => none

/-- The `HH[:MM[:SS[.fff or .ffffff]]]` part of an ISO time.  Returns
`(hour, minute, second, microsecond, rest)`. -/
def parseHMS (cs : List Char) : Option (Nat × Nat × Nat × Nat × List Char) := do
  let (h, r₁) ← readFixedNat 2 cs
  match r₁ with
  | ':' :: r₂ =>
    let (mi, r₃) ← readFixedNat 2 r₂
    match r₃ with
    | ':' :: r₄ =>
      let (sec, r₅) ← readFixedNat 2 r₄
      match r₅ with
      | '.' :: r₆ =>
        let ds := r₆.takeWhile Char.isDigit
        let value := ds.foldl (fun a c => a * 10 + (c.toNat - 48)) 0
        if ds.length = 3 then some (h, mi, sec, value * 1000, r₆.drop 3)
        else if ds.length = 6 then some (h, mi, sec, value, r₆.drop 6)
        else none
      | _ => some (h, mi, sec, 0, r₅)
    | _ => some (h, mi, 0, 0, r₃)
  | _ => some (h, 0, 0, 0, r₁)

/-- The optional `±HH:MM` UTC offset ending an ISO string; `some none`
means "no offset" (a naive result). -/
def parseOffset (cs : List Char) : Option (Option Int) :=
  match cs with
  | [] => some none
  | sign :: rest =>
    if sign = '+' ∨ sign = '-' then do
      let (oh, r₁) ← readFixedNat 2 rest
      let r₂ ← expectChar ':' r₁
      let (om, r₃) ← readFixedNat 2 r₂
      match r₃ with
      | [] =>
        if oh * 60 + om < 24 * 60 then
          some (some ((if sign = '-' then (-1 : Int) else 1) * (oh * 60 + om)))
        else none
      | _ => none
    else none

/-- Model of Python's `datetime.fromisoformat` (3.10-era stdlib) for the
shapes a session timestamp can take:
`YYYY-MM-DD[*HH[:MM[:SS[.fff or .ffffff]]][±HH:MM]]` with `*` any single
separator character.  `none` where Python raises `ValueError`.  (Offsets
with a seconds part, and the looser formats first accepted by Python
3.11, are not modelled.) -/
def fromisoformat (s : String) : Option PyDatetime := do
  let cs := s.data
  let (y, r₁) ← readFixedNat 4 cs
  let r₂ ← expectChar '-' r₁
  let (mo, r₃) ← readFixedNat 2 r₂
  let r₄ ← expectChar '-' r₃
  let (d, r₅) ← readFixedNat 2 r₄
  if validDate y mo d then
    match r₅ with
    | [] => some ⟨⟨y, mo, d, 0, 0, 0, 0⟩, none⟩
    | _sep :: r₆ => do
      let (h, mi, sec, us, r₇) ← parseHMS r₆
      if h ≤ 23 ∧ mi ≤ 59 ∧ sec ≤ 59 then do
        let off ← parseOffset r₇
        some ⟨⟨y, mo, d, h, mi, sec, us⟩, off⟩
      else none
  else none

/-- `CodexHistoryViewer._parse_iso_timestamp` (cohistory.py lines
158-167): `None` for a falsy argument; a trailing `"Z"` is replaced by
`"+00:00"`; any parse failure is caught and yields `None`. -/
def _parse_iso_timestamp (timestamp : String) : Option PyDatetime :=
  if timestamp = "" then none
  else
    let t := if pyEndsWith timestamp "Z"
             then timestamp.dropRight 1 ++ "+00:00" else timestamp
    fromisoformat t

/-! ## The session directory tree -/

/-- A node of the sessions directory tree.  A file carries the naive
local `datetime` that `datetime.fromtimestamp(st_mtime)` yields for it,
and its contents as a `SessionFile`. -/
inductive FSEntry where
  | file (name : String) (mtime : Tm) (content : SessionFile) : FSEntry
  | dir (name : String) (children : List FSEntry) : FSEntry

/-- The session files of a day directory: `day_dir.glob("*.jsonl")`
filtered by `is_file()` and the leading-dot check (cohistory.py lines
197-201 and 220-221; directories whose name matches the glob pattern are
removed by `is_file()`). -/
def sessionFiles (children : List FSEntry) :
    List (String × Tm × SessionFile) :=
  children.filterMap fun e =>
    match e with
    | .file n mt c =>
      if pyEndsWith n ".jsonl" ∧ ¬ pyStartsWith n "." then some (n, mt, c)
      else none
    | .dir _ _ => none

/-- Python `int(s)` on a directory name: surrounding whitespace stripped,
an optional sign, then decimal digits.  (Underscore digit grouping and
non-ASCII digits, which Python also accepts, do not occur here.) -/
def pyInt (s : String) : Option Int :=
  let t : String := ⟨((s.data.dropWhile pySpace).reverse.dropWhile pySpace).reverse⟩
  let (sign, digs) : Int × String :=
    if pyStartsWith t "-" then (-1, t.drop 1)
    else if pyStartsWith t "+" then (1, t.drop 1)
    else (1, t)
  if digs.length ≠ 0 ∧ digs.data.all Char.isDigit then
    some (sign * (digitsToNat digs.data : Int))
  else none

/-- Zero-padded decimal rendering (`strftime` field). -/
def pad (w n : Nat) : String :=
  let s := toString n
  ⟨List.replicate (w - s.length) '0'⟩ ++ s

/-- One entry collected by `get_dates`: the display label, the path of
the day directory (its year/month/day directory names), and the parsed
integers behind the `datetime` sort key. -/
structure DateEntry where
  label : String
  path : List String
  y : Int
  m : Int
  d : Int
deriving DecidableEq, Repr

/-- The sort key of a `DateEntry`: `datetime(y, m, d)` comparison is
lexicographic in `(y, m, d)`, and for the valid ranges
`1 ≤ m ≤ 12 ≤ 99`, `1 ≤ d ≤ 31 ≤ 99` this integer encoding has the same
order. -/
def DateEntry.key (e : DateEntry) : Int := e.y * 10000 + e.m * 100 + e.d

/-- The label `f"{date_value.strftime('%Y-%m-%d')} ({count} ...)"`
(cohistory.py lines 207-210). -/
def dateLabel (y m d : Int) (count : Nat) : String :=
  pad 4 y.toNat ++ "-" ++ pad 2 m.toNat ++ "-" ++ pad 2 d.toNat ++ " (" ++
    toString count ++ " " ++ (if count = 1 then "session" else "sessions") ++ ")"

/-- Build the `DateEntry` appended for one qualifying day directory. -/
def mkDateEntry (y m d : Int) (yn mn dn : String) (count : Nat) : DateEntry :=
  ⟨dateLabel y m d count, [yn, mn, dn], y, m, d⟩

/-- The innermost loop of `get_dates` (cohistory.py lines 189-211) over
the entries of one month directory: skip non-directories and
non-numeric names, skip day directories without session files, and
append an entry for the rest — unless `datetime(year, month, day)`
raises (`none`), which aborts the whole scan. -/
def scanDays (y m : Int) (yn mn : String) :
    List FSEntry → Option (List DateEntry)
  | [] => some []
  | .file _ _ _ :: rest => scanDays y m yn mn rest
  | .dir dn dch :: rest =>
    (pyInt dn).elim (scanDays y m yn mn rest) fun d =>
      if (sessionFiles dch).length = 0 then scanDays y m yn mn rest
      else if validDate y m d then
        (scanDays y m yn mn rest).map
          (mkDateEntry y m d yn mn dn (sessionFiles dch).length :: ·)
      else none

/-- The month-level loop of `get_dates` (cohistory.py lines 181-187). -/
def scanMonths (y : Int) (yn : String) :
    List FSEntry → Option (List DateEntry)
  | [] => some []
  | .file _ _ _ :: rest => scanMonths y yn rest
  | .dir mn mch :: rest =>
    (pyInt mn).elim (scanMonths y yn rest) fun m =>
      (scanDays y m yn mn mch).bind fun a =>
        (scanMonths y yn rest).map fun b => a ++ b

/-- The year-level loop of `get_dates` (cohistory.py lines 173-179). -/
def scanYears : List FSEntry → Option (List DateEntry)
  | [] => some []
  | .file _ _ _ :: rest => scanYears rest
  | .dir yn ych :: rest =>
    (pyInt yn).elim (scanYears rest) fun y =>
      (scanMonths y yn ych).bind fun a =>
        (scanYears rest).map fun b => a ++ b

/-- The descending stable sort `date_entries.sort(key=..., reverse=True)`
(cohistory.py line 213): Python's sort is stable and `reverse=True`
keeps equal keys in scan order, exactly like a stable insertion sort
with the relation "my key is at least yours". -/
def sortDateEntries (l : List DateEntry) : List DateEntry :=
  List.insertionSort (fun a b => b.key ≤ a.key) l

/-- `CodexHistoryViewer.get_dates` before the final projection to
`(label, path)` pairs: `none` when the scan raises. -/
def get_datesFull (root : List FSEntry) : Option (List DateEntry) :=
  (scanYears root).map sortDateEntries

/-- `CodexHistoryViewer.get_dates` (cohistory.py lines 169-214): the
sorted `(label, day-directory path)` list, or `none` when the Python
original raises `ValueError` on an out-of-range `datetime`. -/
def get_dates (root : List FSEntry) : Option (List (String × List String)) :=
  (get_datesFull root).map (List.map fun e => (e.label, e.path))

/-! ## Session listing (`get_sessions`) -/

/-- `Path(cwd).name` for the string paths occurring here: the last
non-empty `/`-separated component. -/
def splitOnChar (c : Char) : List Char → List (List Char)
  | [] => [[]]
  | x :: rest =>
    if x = c then [] :: splitOnChar c rest
    else
      match splitOnChar c rest with
      | [] => [[x]]
      | g :: gs => (x :: g) :: gs

def basename (s : String) : String :=
  ⟨((((splitOnChar '/' s.data).filter (· ≠ [])).getLast?).getD [])⟩

/-- `started_dt.strftime('%H:%M')`. -/
def strfHM (dt : PyDatetime) : String :=
  pad 2 dt.tm.hour ++ ":" ++ pad 2 dt.tm.minute

/-- One entry built by the loop of `get_sessions` (cohistory.py lines
220-237) for a session file: the display name and the resolved start
datetime.  `none` when the loop body raises: `Path(cwd)` on a truthy
non-string `cwd` value is a `TypeError`. -/
def sessionEntry (f : String × Tm × SessionFile) :
    Option (String × String × PyDatetime) := do
  let (name, mtime, content) := f
  let metadata := _read_session_metadata content
  let startedIso : Option PyDatetime :=
    match metadata.timestamp with
    | some (.str s) => _parse_iso_timestamp s
    | _ => none
  -- `if not started_dt:` — a datetime object is always truthy, so the
  -- fallback fires exactly when the parse produced `None`.
  let started := startedIso.getD ⟨mtime, none⟩
  let cwdLabel : Option String :=
    match metadata.cwd with
    | some v =>
      if v.truthy then
        match v with
        | .str s => some (" - " ++ basename s)
        | _ => none
      else some ""
    | none => some ""
  let cl ← cwdLabel
  some (strfHM started ++ " - " ++ name ++ cl, name, started)

/-- Whether the resolved start datetimes mix offset-aware and
offset-naive values.  When they do, every comparison sort must compare
some aware value with some naive one to order the two groups, and that
comparison raises `TypeError` in Python — so `session_entries.sort`
raises exactly on mixed lists (with at least one value of each kind). -/
def mixedAware (l : List PyDatetime) : Bool :=
  (l.any fun d => d.off.isSome) ∧ (l.any fun d => d.off.isNone)

/-- `CodexHistoryViewer.get_sessions` (cohistory.py lines 216-240): build
an entry per session file of the day directory, sort by resolved start
time descending (stable), and project to `(display name, file name)`;
`none` when the Python original raises (a `TypeError` from building a
label or from comparing an aware datetime with a naive one). -/
def get_sessions (children : List FSEntry) :
    Option (List (String × String)) := do
  let entries ← (sessionFiles children).mapM sessionEntry
  if mixedAware (entries.map fun e => e.2.2) then none
  else
    some ((List.insertionSort
      (fun a b : String × String × PyDatetime => b.2.2.instant ≤ a.2.2.instant)
      entries).map fun e => (e.1, e.2.1))

/-! ## Specification-side definitions

These definitions follow the wording of the specification/claims, to be
compared against the code-side definitions above. -/

/-- Whether a line is blank. -/
def Line.isBlank : Line → Bool
  | .blank => true
  | _ => false

/-- `readMetadata` as claim C2 words it: parse the file's **first
non-blank line** as one structured record. -/
def readMetadataClaim (file : SessionFile) : SessionMetadata :=
  match file with
  | none => emptyMeta
  | some lines =>
    match (lines.filter fun l => !l.isBlank).head? with
    | some l => metaOfLine l
    | none => emptyMeta

/-- `readMetadata` as amended: parse only the file's **first** line; a
blank (or absent) first line already yields the empty value. -/
def readMetadataAmended (file : SessionFile) : SessionMetadata :=
  match file with
  | none => emptyMeta
  | some lines =>
    match lines.head? with
    | some l => if l.isBlank then emptyMeta else metaOfLine l
    | none => emptyMeta

/-! ## Claim C2 -/

/-- A session-metadata first line used in several examples below. -/
def metaLineEx : Line :=
  .record (.obj [("type", .str "session_meta"),
    ("payload", .obj [("timestamp", .str "2025-09-01T09:00:00Z"),
                      ("cwd", .str "/tmp/proj")])])

/-- A file whose first line is blank and whose second line is a valid
session-metadata record. -/
def blankFirstFile : SessionFile := some [.blank, metaLineEx]

/-- Claim C2 is false as stated: on a file whose first line is blank and
whose **first non-blank** line is a valid session-metadata record,
`_read_session_metadata` returns the empty metadata value, not the
metadata parsed from the first non-blank line as the claim prescribes. -/
theorem c2_counterexample :
    _read_session_metadata blankFirstFile ≠ readMetadataClaim blankFirstFile ∧
    (_read_session_metadata blankFirstFile).timestamp = none ∧
    (readMetadataClaim blankFirstFile).timestamp =
      some (.str "2025-09-01T09:00:00Z") := by
  refine ⟨fun h => ?_, rfl, rfl⟩
  have h' := congrArg SessionMetadata.timestamp h
  exact Option.noConfusion h'

/-- Claim C2, amended: `readMetadata` parses only the file's **first**
line as one structured record; if the first line is blank or absent, the
record's declared type is not the session-metadata type, or parsing
fails for any reason (I/O error, malformed structure), it returns the
empty metadata value and never raises to the caller (the function is
total: every failure path lands on `emptyMeta`). -/
theorem c2_amended :
    ∀ file, _read_session_metadata file = readMetadataAmended file := by
  intro file
  match file with
  | none => rfl
  | some [] => rfl
  | some (.blank :: _) => rfl
  | some (.malformed :: _) => rfl
  | some (.record j :: _) => cases j <;> rfl

/-! ## Claim C9 -/

/-- Claim C9: on every exit path of `get_key` — the read succeeding or
raising — the `finally` clause restores the terminal attributes saved
before the read, so the resulting terminal mode equals the mode the
terminal had before the call (the terminal is never left in raw mode). -/
theorem c9_mode_restored (t : Term) : ((get_key t).2).mode = t.mode := rfl

/-! ## Claim C8 -/

/-- Claim C8: displaying the menu with an empty item list does not raise:
the prologue yields the one-page configuration `⟨0, 1, false, 1⟩`, the
rendered slice is empty, and every key leaves the state unchanged except
`Enter` (returning index 0) and `Quit` — that is, the loop waits for
Enter or Quit. -/
theorem c8_empty_menu (paginate : Bool) (itemsPerPage : Nat) (k : String) :
    menuSetup 0 paginate itemsPerPage = ⟨0, 1, false, 1⟩ ∧
    visibleItems [] (menuSetup 0 paginate itemsPerPage) ⟨0, 0⟩ = [] ∧
    menuStep (menuSetup 0 paginate itemsPerPage) ⟨0, 0⟩ k =
      (if k = "\r" ∨ k = "\n" then .select 0
       else if k = "q" ∨ k = "\x03" then .quit
       else .redraw ⟨0, 0⟩) := by
  have hcfg : menuSetup 0 paginate itemsPerPage = ⟨0, 1, false, 1⟩ := by
    unfold menuSetup
    rw [if_neg]
    · rfl
    · rintro ⟨-, h⟩; omega
  refine ⟨hcfg, by rw [hcfg]; rfl, ?_⟩
  rw [hcfg]
  unfold menuStep
  split_ifs <;> simp_all

/-! ## Claim C1 -/

/-- A terminal about to deliver the 4-byte PageUp sequence `ESC [ 5 ~`. -/
def pgUpTerm : Term := ⟨7, [some '\x1b', some '[', some '5', some '~']⟩

/-- A terminal about to deliver the 4-byte PageDown sequence `ESC [ 6 ~`. -/
def pgDnTerm : Term := ⟨7, [some '\x1b', some '[', some '6', some '~']⟩

/-- A paginating menu configuration: 25 items, 10 per page, 3 pages. -/
def cfg25 : MenuConfig := menuSetup 25 true 10

/-- Claim C1 describes a code bug.  `get_key` reads exactly two bytes
after the escape byte and never the extra fourth byte of the standard
4-byte PageUp/PageDown sequences: on input `ESC [ 5 ~` it returns
`"\x1b[5"` and leaves `~` unread.  Consequently the menu's
`"\x1b[5~"`/`"\x1b[6~"` branches (and the page jump the claim and the
menu's own printed help describe) are unreachable: both the truncated
3-byte key and the left-over `~` are no-ops, while the intended 4-byte
strings — were they ever returned — would perform the page jump. -/
theorem c1_pageup_dead :
    (get_key pgUpTerm).1 = .ok "\x1b[5" ∧
    (get_key pgUpTerm).2.input = [some '~'] ∧
    (get_key pgDnTerm).1 = .ok "\x1b[6" ∧
    menuStep cfg25 ⟨0, 0⟩ "\x1b[6" = .redraw ⟨0, 0⟩ ∧
    menuStep cfg25 ⟨0, 0⟩ "~" = .redraw ⟨0, 0⟩ ∧
    menuStep cfg25 ⟨10, 1⟩ "\x1b[5" = .redraw ⟨10, 1⟩ ∧
    menuStep cfg25 ⟨10, 1⟩ "~" = .redraw ⟨10, 1⟩ ∧
    menuStep cfg25 ⟨0, 0⟩ "\x1b[6~" = .redraw ⟨10, 1⟩ ∧
    menuStep cfg25 ⟨10, 1⟩ "\x1b[5~" = .redraw ⟨0, 0⟩ := by
  refine ⟨rfl, rfl, rfl, ?_, ?_, ?_, ?_, ?_, ?_⟩ <;> decide

/-! ## Claim C3 -/

/-- `end_idx` of page `p`: one past the last item index shown on it. -/
def pageEnd (N P p : Nat) : Nat := min (p * P + P) N

/-- The content of claim C3 for item count `N` and page size `P` (with
pagination requested and `N > P`, so `display_menu` keeps it on):

* the prologue produces `total_pages = ceil(N/P)` — written both as the
  code's `(N + P - 1) / P` and by its characteristic inequalities;
* every item index lies on exactly one page;
* `Down` from the last item of a non-final page advances to the first
  item of the next page;
* `Up` from the first item of a non-initial page moves to the last item
  of the previous page. -/
def PaginationOK (N P : Nat) : Prop :=
  menuSetup N true P = ⟨N, P, true, (N + P - 1) / P⟩ ∧
  P * ((N + P - 1) / P - 1) < N ∧ N ≤ P * ((N + P - 1) / P) ∧
  (∀ i, i < N →
    ∃! p, p < (N + P - 1) / P ∧ p * P ≤ i ∧ i < pageEnd N P p) ∧
  (∀ p, p + 1 < (N + P - 1) / P →
    menuStep ⟨N, P, true, (N + P - 1) / P⟩ ⟨pageEnd N P p - 1, p⟩ "\x1b[B"
      = .redraw ⟨(p + 1) * P, p + 1⟩) ∧
  (∀ p, 0 < p → p < (N + P - 1) / P →
    menuStep ⟨N, P, true, (N + P - 1) / P⟩ ⟨p * P, p⟩ "\x1b[A"
      = .redraw ⟨pageEnd N P (p - 1) - 1, p - 1⟩ ∧
    pageEnd N P (p - 1) = p * P)

/-! ## Claim C3: theorems -/

theorem ceil_bounds (N P : Nat) (hP : 0 < P) (hNP : P < N) :
    P * ((N + P - 1) / P - 1) < N ∧ N ≤ P * ((N + P - 1) / P) := by
  have h1 : P * ((N + P - 1) / P) + (N + P - 1) % P = N + P - 1 :=
    Nat.div_add_mod _ _
  have h2 : (N + P - 1) % P < P := Nat.mod_lt _ hP
  have hT1 : 1 ≤ (N + P - 1) / P :=
    (Nat.one_le_div_iff hP).mpr (by omega)
  obtain ⟨t, ht⟩ : ∃ t, (N + P - 1) / P = t + 1 := ⟨(N + P - 1) / P - 1, by omega⟩
  rw [ht] at h1 ⊢
  rw [Nat.mul_succ] at h1 ⊢
  simp only [Nat.add_sub_cancel]
  generalize hy : P * t = y at h1 ⊢
  omega

theorem c3_pagination (N P : Nat) (hP : 0 < P) (hNP : P < N) :
    PaginationOK N P := by
  obtain ⟨hlo, hhi⟩ := ceil_bounds N P hP hNP
  refine ⟨?_, hlo, hhi, ?_, ?_, ?_⟩
  · unfold menuSetup
    rw [if_pos ⟨rfl, hNP⟩]
  · -- every item index lies on exactly one page
    intro i hi
    have hdm := Nat.mod_add_div' i P
    have hmlt := Nat.mod_lt i hP
    have hdms : i / P * P ≤ i := Nat.div_mul_le_self i P
    have hup : i < i / P * P + P := by omega
    refine ⟨i / P, ⟨?_, hdms, ?_⟩, ?_⟩
    · exact (Nat.div_lt_iff_lt_mul hP).mpr
        (lt_of_lt_of_le hi (by rw [Nat.mul_comm]; exact hhi))
    · unfold pageEnd
      exact lt_min hup hi
    · rintro q ⟨hq1, hq2, hq3⟩
      unfold pageEnd at hq3
      have hq4 : i < q * P + P := lt_of_lt_of_le hq3 (min_le_left _ _)
      by_contra hne
      rcases Nat.lt_or_ge q (i / P) with hlt | hge
      · have h6 : (q + 1) * P ≤ i / P * P := Nat.mul_le_mul_right _ (by omega)
        rw [Nat.succ_mul] at h6
        omega
      · have h6 : (i / P + 1) * P ≤ q * P := Nat.mul_le_mul_right _ (by omega)
        rw [Nat.succ_mul] at h6
        omega
  · -- Down from the last item of a non-final page
    intro p hp
    have h6 : (p + 1) * P ≤ ((N + P - 1) / P - 1) * P :=
      Nat.mul_le_mul_right _ (by omega)
    rw [Nat.succ_mul, Nat.mul_comm ((N + P - 1) / P - 1) P] at h6
    have hfull : p * P + P ≤ N := le_of_lt (lt_of_le_of_lt h6 hlo)
    have hpe : pageEnd N P p = p * P + P := min_eq_left hfull
    have hmin1 : (p * P + P) ⊓ N = p * P + P := min_eq_left hfull
    have hmin2 : (p * P + P - 1) ⊓ (N - 1) = p * P + P - 1 :=
      min_eq_left (by omega)
    simp only [menuStep, hpe, hmin1, hmin2, if_true]
    rw [if_neg (by decide : ¬("\x1b[B" : String) = "\x1b[A")]
    rw [if_neg (lt_irrefl (p * P + P - 1))]
    rw [if_pos (show True ∧ p < (N + P - 1) / P - 1 from ⟨trivial, by omega⟩)]
  · -- Up from the first item of a non-initial page
    intro p hp0 hp
    have h6 : p * P ≤ ((N + P - 1) / P - 1) * P :=
      Nat.mul_le_mul_right _ (by omega)
    rw [Nat.mul_comm ((N + P - 1) / P - 1) P] at h6
    have hple : p * P ≤ N := le_of_lt (lt_of_le_of_lt h6 hlo)
    have hsucc : (p - 1) * P + P = p * P := by
      rw [← Nat.succ_mul]
      congr 1
      omega
    have hpe : pageEnd N P (p - 1) = p * P := by
      unfold pageEnd
      rw [hsucc]
      exact min_eq_left hple
    refine ⟨?_, hpe⟩
    have hmax : ((p - 1) * P) ⊔ (p * P - 1) = p * P - 1 := by
      apply max_eq_right
      omega
    have hminN : ((p - 1) * P + P) ⊓ N = p * P := by
      rw [hsucc]; exact min_eq_left hple
    simp only [menuStep, hpe, if_true]
    rw [if_neg (lt_irrefl (p * P))]
    rw [if_pos (show True ∧ 0 < p from ⟨trivial, hp0⟩)]
    simp only [hminN, hmax]

theorem c3_witness :
    0 < 4 ∧ 4 < 27 ∧ PaginationOK 27 4 :=
  ⟨by decide, by decide, c3_pagination 27 4 (by decide) (by decide)⟩



/-! ## Claim C5 -/

/-- What one content-list element contributes, per the words of claim C5:
the `text` field of a structured item of subtype `input_text`,
`output_text` or `text`, or a plain string element itself. -/
def claimPart (item : Json) : Option String :=
  match item with
  | .obj fields =>
    (jgetStr fields "type").bind fun t =>
      if t = "input_text" ∨ t = "output_text" ∨ t = "text" then
        jgetStr fields "text"
      else none
  | .str s => some s
  | _ => none

/-- A `text` value on which `"\n".join` cannot raise: a string, or a
falsy value (which the truthiness guard drops before the join). -/
def jsonTextOk : Json → Bool
  | .str _ => true
  | v => !v.truthy

/-- Well-formedness of one content-list element for claim C5: its `text`
field, when present and truthy, is a string. -/
def textOk (item : Json) : Bool :=
  match item with
  | .obj fields => ((jget fields "text").map jsonTextOk).getD true
  | _ => true

/-- The truthy parts kept by `_extract_text` are exactly the non-empty
contributions named by claim C5, in order. -/
theorem kept_eq (items : List Json) (h : ∀ it ∈ items, textOk it = true) :
    (items.filterMap contentPart).filter Json.truthy
      = ((items.filterMap claimPart).filter (fun s => s ≠ "")).map Json.str := by
  induction items with
  | nil => rfl
  | cons it rest ih =>
    have hit := h it (List.mem_cons_self _ _)
    have hrest := ih (fun x hx => h x (List.mem_cons_of_mem _ hx))
    simp only [List.filterMap_cons]
    cases it with
    | str s =>
      by_cases hs : s = ""
      · subst hs
        simp [contentPart, claimPart, Json.truthy, hrest]
      · simp [contentPart, claimPart, Json.truthy, hs, hrest]
    | obj fields =>
      simp only [contentPart, claimPart]
      rcases hjt : jgetStr fields "type" with _ | t
      · simp [hjt, hrest]
      · simp only [hjt, Option.some_bind]
        by_cases ht : t = "input_text" ∨ t = "output_text" ∨ t = "text"
        · rw [if_pos ht, if_pos ht]
          rcases hjx : jget fields "text" with _ | tv
          · simp [jgetStr, hjx, hrest]
          · simp only [textOk, hjx, Option.map_some', Option.getD_some] at hit
            cases tv with
            | str s =>
              by_cases hs : s = ""
              · subst hs
                simp [jgetStr, hjx, Json.asStr, Json.truthy, hrest]
              · simp [jgetStr, hjx, Json.asStr, Json.truthy, hs, hrest]
            | null => simp [jgetStr, hjx, Json.asStr, Json.truthy, hrest]
            | bool b =>
              cases b with
              | false => simp [jgetStr, hjx, Json.asStr, Json.truthy, hrest]
              | true => simp [jsonTextOk, Json.truthy] at hit
            | num n =>
              have hn : n = 0 := by
                by_contra hn0
                simp [jsonTextOk, Json.truthy, hn0] at hit
              subst hn
              simp [jgetStr, hjx, Json.asStr, Json.truthy, hrest]
            | arr xs =>
              have : xs = [] := by
                by_contra hx0
                simp [jsonTextOk, Json.truthy, List.isEmpty_iff, hx0] at hit
              subst this
              simp [jgetStr, hjx, Json.asStr, Json.truthy, hrest]
            | obj fs =>
              have : fs = [] := by
                by_contra hx0
                simp [jsonTextOk, Json.truthy, List.isEmpty_iff, hx0] at hit
              subst this
              simp [jgetStr, hjx, Json.asStr, Json.truthy, hrest]
        · rw [if_neg ht, if_neg ht]
          simp [hrest]
    | null => simp [contentPart, claimPart, hrest]
    | bool b => simp [contentPart, claimPart, hrest]
    | num n => simp [contentPart, claimPart, hrest]
    | arr xs => simp [contentPart, claimPart, hrest]

/-- A message record whose extracted text is empty (one `text` item with
an empty string). -/
def c5EmptyMsgLine : Line :=
  .record (.obj [("type", .str "response_item"),
    ("payload", .obj [("type", .str "message"), ("role", .str "user"),
      ("content", .arr [.obj [("type", .str "text"), ("text", .str "")]])])])

/-- Claim C5, amended: for a list content whose present, truthy `text`
fields are strings, the extracted text is the newline-join, trimmed, of
the **non-empty** `text` fields of the qualifying structured items and
the non-empty plain-string elements — an empty text contributes nothing
rather than an empty joined line; and a message whose resulting text is
empty is dropped by `parse_conversation`. -/
theorem c5_amended (items : List Json) (h : ∀ it ∈ items, textOk it = true) :
    _extract_text (.arr items)
      = some (pyStrip (String.intercalate "\n"
          ((items.filterMap claimPart).filter (fun s => s ≠ "")))) ∧
    parse_conversation (some [c5EmptyMsgLine]) = [] := by
  refine ⟨?_, rfl⟩
  unfold _extract_text collectParts joinParts
  rw [kept_eq items h]
  rw [if_pos ?cond]
  case cond =>
    refine List.all_eq_true.mpr fun x hx => ?_
    obtain ⟨s, -, rfl⟩ := List.mem_map.mp hx
    rfl
  congr 1
  rw [List.map_map]
  rw [show ((fun p => (Json.asStr p).getD "") ∘ Json.str) = id from funext fun s => rfl]
  rw [List.map_id]

/-- The content list `[{type: text, text: "a"}, {type: text, text: ""},
{type: text, text: "b"}]`. -/
def c5CounterItems : List Json :=
  [.obj [("type", .str "text"), ("text", .str "a")],
   .obj [("type", .str "text"), ("text", .str "")],
   .obj [("type", .str "text"), ("text", .str "b")]]

/-- Claim C5 is false as stated: with an empty `text` field between two
non-empty ones, the code yields `"a\nb"`, while joining **every**
qualifying element's text field with newlines (the claim's words) yields
`"a\n\nb"`. -/
theorem c5_counterexample :
    _extract_text (.arr c5CounterItems) = some "a\nb" ∧
    pyStrip (String.intercalate "\n" (c5CounterItems.filterMap claimPart))
      = "a\n\nb" ∧
    _extract_text (.arr c5CounterItems) ≠
      some (pyStrip (String.intercalate "\n"
        (c5CounterItems.filterMap claimPart))) := by
  refine ⟨rfl, rfl, ?_⟩
  decide

/-- The scenario content `[{type: text, text: "hi"},
{type: text, text: "there"}]`. -/
def c5ScenarioItems : List Json :=
  [.obj [("type", .str "text"), ("text", .str "hi")],
   .obj [("type", .str "text"), ("text", .str "there")]]

theorem c5_witness :
    (∀ it ∈ c5ScenarioItems, textOk it = true) ∧
    (_extract_text (.arr c5ScenarioItems)
        = some (pyStrip (String.intercalate "\n"
            ((c5ScenarioItems.filterMap claimPart).filter (fun s => s ≠ "")))) ∧
     parse_conversation (some [c5EmptyMsgLine]) = []) ∧
    _extract_text (.arr c5ScenarioItems) = some "hi\nthere" :=
  ⟨by decide, c5_amended c5ScenarioItems (by decide), rfl⟩



/-! ## Claim C4 -/

/-- The message claim C4 prescribes for one line: the record's declared
type is the response-item type, the nested payload is a dict of type
`"message"`, the role is `"user"` or `"assistant"`, and the extracted
text is non-empty. -/
def specMsg (l : Line) : Option Message :=
  match l with
  | .record (.obj fields) =>
    if jgetStr fields "type" = some "response_item" then
      (((jget fields "payload").getD (.obj [])).objFields).bind fun pfields =>
        if jgetStr pfields "type" = some "message" then
          (jgetStr pfields "role").bind fun r =>
            if r = "user" ∨ r = "assistant" then
              (_extract_text ((jget pfields "content").getD .null)).bind fun t =>
                if t ≠ "" then
                  some ⟨r, t, (jget fields "timestamp").getD (.str "")⟩
                else none
            else none
        else none
    else none
  | _ => none

/-- The messages claim C4 prescribes for a whole file, in file order. -/
def specMessages (lines : List Line) : List Message :=
  lines.filterMap specMsg

/-- Well-formedness of one line for the amended claim C4: a parsed line
is a JSON object, and extracting its message content (when the payload is
a dict) cannot raise. -/
def lineOk : Line → Bool
  | .record (.obj fields) =>
    ((((jget fields "payload").getD (.obj [])).objFields).map fun pfields =>
      (_extract_text ((jget pfields "content").getD .null)).isSome).getD true
  | .record _ => false
  | _ => true

/-- On well-formed lines the loop body realises exactly the message (or
skip) that claim C4 prescribes. -/
theorem classify_eq (l : Line) (h : lineOk l = true) :
    classifyLine l = (specMsg l).elim .skip .msg := by
  cases l with
  | blank => rfl
  | malformed => rfl
  | record j =>
    cases j with
    | obj fields =>
      simp only [classifyLine, specMsg]
      by_cases h1 : jgetStr fields "type" = some "response_item"
      · rw [if_pos h1, if_pos h1]
        rcases hp : ((jget fields "payload").getD (.obj [])).objFields with _ | pfields
        · simp [hp]
        · simp only [hp, Option.elim_some, Option.some_bind]
          simp only [lineOk, hp, Option.map_some', Option.getD_some] at h
          by_cases h2 : jgetStr pfields "type" = some "message"
          · rw [if_pos h2, if_pos h2]
            rcases hr : jgetStr pfields "role" with _ | r
            · simp [hr]
            · simp only [hr, Option.some_bind, Option.some.injEq,
                Option.getD_some]
              by_cases h3 : r = "user" ∨ r = "assistant"
              · rw [if_pos h3, if_pos h3]
                rcases hx : _extract_text ((jget pfields "content").getD .null)
                  with _ | t
                · rw [hx] at h
                  simp at h
                · simp only [hx, Option.elim_some, Option.some_bind]
                  by_cases h4 : t = ""
                  · simp [h4]
                  · simp [h4]
              · rw [if_neg h3, if_neg h3]
                rfl
          · rw [if_neg h2, if_neg h2]
            rfl
      · rw [if_neg h1, if_neg h1]
        rfl
    | _ => simp [lineOk] at h

/-- Claim C4, amended: provided every parsed line is a JSON object (and
message text fields are strings), `parse_conversation` yields exactly the
records claim C4 names — response-item records with a message payload, a
user/assistant role and non-empty extracted text — in file order,
skipping blank lines, malformed lines and all other records.  (A line
parsing to a non-object JSON value instead aborts the parse: see the
counterexample.) -/
theorem c4_amended (lines : List Line) (h : ∀ l ∈ lines, lineOk l = true) :
    parse_conversation (some lines) = specMessages lines := by
  have key : parseLines lines = some (specMessages lines) := by
    induction lines with
    | nil => rfl
    | cons l ls ih =>
      have hl := h l (List.mem_cons_self _ _)
      have hls := ih (fun x hx => h x (List.mem_cons_of_mem _ hx))
      simp only [parseLines, specMessages, List.filterMap_cons]
      rw [classify_eq l hl, hls]
      rcases specMsg l with _ | m
      · rfl
      · rfl
  simp only [parse_conversation, key, Option.getD_some]

/-- A valid user message record. -/
def c4GoodLine : Line :=
  .record (.obj [("type", .str "response_item"), ("timestamp", .str "t1"),
    ("payload", .obj [("type", .str "message"), ("role", .str "user"),
      ("content", .str "hello")])])

/-- A file interleaving a valid message with a line whose JSON value is
not an object. -/
def c4BadFile : List Line := [c4GoodLine, .record (.str "oops")]

/-- Claim C4 is false as stated: a line that parses to a **non-object**
JSON value (here the JSON string `"oops"`) is neither blank nor
malformed, yet instead of being skipped it makes `data.get` raise
`AttributeError`, the outer handler catches it, and the whole parse
returns the empty list — the valid message that claim C4 promises is
lost. -/
theorem c4_counterexample :
    parse_conversation (some c4BadFile) = [] ∧
    specMessages c4BadFile = [⟨"user", "hello", .str "t1"⟩] ∧
    parse_conversation (some c4BadFile) ≠ specMessages c4BadFile := by
  refine ⟨rfl, rfl, ?_⟩
  intro hEq
  rw [show parse_conversation (some c4BadFile) = [] from rfl] at hEq
  rw [show specMessages c4BadFile = [⟨"user", "hello", .str "t1"⟩] from rfl]
    at hEq
  exact List.noConfusion hEq

/-- A file interleaving blank, malformed, wrong-typed, system-role and
valid lines. -/
def c4WitnessFile : List Line :=
  [.blank,
   c4GoodLine,
   .malformed,
   .record (.obj [("type", .str "other")]),
   .record (.obj [("type", .str "response_item"),
     ("payload", .obj [("type", .str "message"), ("role", .str "system"),
       ("content", .str "sys")])])]

theorem c4_witness :
    (∀ l ∈ c4WitnessFile, lineOk l = true) ∧
    parse_conversation (some c4WitnessFile) = specMessages c4WitnessFile ∧
    parse_conversation (some c4WitnessFile) = [⟨"user", "hello", .str "t1"⟩] :=
  ⟨by decide, c4_amended _ (by decide), rfl⟩



/-! ## Claim C10 -/

/-- Claim C10: for a session file whose first line is a valid
session-metadata record (an object of type `"session_meta"` with a dict
payload), the resolved metadata timestamp gives the payload's
`timestamp` field precedence: a non-empty string payload timestamp is
used as is, and the record's top-level `timestamp` is consulted exactly
when the payload timestamp is absent or the empty string. -/
theorem c10_payload_precedence
    (fields pfields : List (String × Json))
    (hty : jgetStr fields "type" = some "session_meta")
    (hpay : ((jget fields "payload").getD (.obj [])).objFields = some pfields) :
    (∀ s, jget pfields "timestamp" = some (.str s) → s ≠ "" →
      (_read_session_metadata (some [.record (.obj fields)])).timestamp
        = some (.str s)) ∧
    ((jget pfields "timestamp" = none ∨
      jget pfields "timestamp" = some (.str "")) →
      (_read_session_metadata (some [.record (.obj fields)])).timestamp
        = jget fields "timestamp") := by
  have hbase :
      (_read_session_metadata (some [.record (.obj fields)])).timestamp
        = pyOr (jget pfields "timestamp") (jget fields "timestamp") := by
    simp only [_read_session_metadata, List.head?_cons, Option.getD_some,
      metaOfLine, if_pos hty, hpay, Option.elim_some]
  refine ⟨fun s hs hne => ?_, fun hcase => ?_⟩
  · rw [hbase, hs]
    simp [pyOr, Json.truthy, hne]
  · rcases hcase with hc | hc <;> rw [hbase, hc] <;> simp [pyOr, Json.truthy]

/-- The fields of a concrete session-metadata record with both a payload
timestamp and a top-level timestamp. -/
def c10Fields : List (String × Json) :=
  [("type", .str "session_meta"), ("timestamp", .str "2025-09-01T07:00:00Z"),
   ("payload", .obj [("timestamp", .str "2025-09-01T09:00:00Z"),
     ("cwd", .str "/tmp/proj")])]

/-- The payload fields of `c10Fields`. -/
def c10Payload : List (String × Json) :=
  [("timestamp", .str "2025-09-01T09:00:00Z"), ("cwd", .str "/tmp/proj")]

theorem c10_witness :
    jgetStr c10Fields "type" = some "session_meta" ∧
    ((jget c10Fields "payload").getD (.obj [])).objFields = some c10Payload ∧
    ((∀ s, jget c10Payload "timestamp" = some (.str s) → s ≠ "" →
      (_read_session_metadata (some [.record (.obj c10Fields)])).timestamp
        = some (.str s)) ∧
     ((jget c10Payload "timestamp" = none ∨
       jget c10Payload "timestamp" = some (.str "")) →
      (_read_session_metadata (some [.record (.obj c10Fields)])).timestamp
        = jget c10Fields "timestamp")) :=
  ⟨rfl, rfl, c10_payload_precedence c10Fields c10Payload rfl rfl⟩



/-! ## Claim C7 -/

/-- A session file with a valid aware metadata timestamp (ends in `Z`). -/
def c7FileA : FSEntry := .file "a.jsonl" ⟨2025, 9, 1, 10, 0, 0, 0⟩ (some [metaLineEx])

/-- A session file with no usable metadata (blank first line): its start
time falls back to the naive modification time 14:30. -/
def c7FileB : FSEntry := .file "b.jsonl" ⟨2025, 9, 1, 14, 30, 0, 0⟩ (some [.blank])

/-- A second metadata-less file, modified at 09:00. -/
def c7FileC : FSEntry := .file "c.jsonl" ⟨2025, 9, 1, 9, 0, 0, 0⟩ (some [.blank])

/-- Claim C7 describes a code bug.  Each resolution works on its own —
a valid metadata timestamp is used (aware, from the trailing-`Z` form)
and a file without metadata falls back to its modification time (naive),
and metadata-less files sort descending by mtime without raising — but
a day mixing the two kinds raises: Python's sort compares the
offset-aware datetime of `a.jsonl` with the offset-naive fallback of
`b.jsonl` and `datetime.__lt__` raises `TypeError`, so `get_sessions`
raises (`none`) instead of returning the sorted list the claim promises. -/
theorem c7_mixed_raises :
    get_sessions [c7FileA, c7FileB] = none ∧
    get_sessions [c7FileA] = some [("09:00 - a.jsonl - proj", "a.jsonl")] ∧
    get_sessions [c7FileB] = some [("14:30 - b.jsonl", "b.jsonl")] ∧
    get_sessions [c7FileC, c7FileB] =
      some [("14:30 - b.jsonl", "b.jsonl"), ("09:00 - c.jsonl", "c.jsonl")] :=
  ⟨by decide, by decide, by decide, by decide⟩

/-! ## Claim C6 -/

/-- Per the spec, what one entry of a month directory contributes to the
date list: a subdirectory with a numeric name holding at least one
session file. -/
def specDayEntry (y m : Int) (yn mn : String) (e : FSEntry) : List DateEntry :=
  match e with
  | .dir dn dch =>
    (pyInt dn).elim [] fun d =>
      if (sessionFiles dch).length ≠ 0 then
        [mkDateEntry y m d yn mn dn (sessionFiles dch).length]
      else []
  | .file _ _ _ => []

/-- The qualifying day directories of one month directory. -/
def specDaysM (y m : Int) (yn mn : String) (children : List FSEntry) :
    List DateEntry :=
  children.flatMap (specDayEntry y m yn mn)

/-- Per the spec, what one entry of a year directory contributes. -/
def specMonthEntry (y : Int) (yn : String) (e : FSEntry) : List DateEntry :=
  match e with
  | .dir mn mch => (pyInt mn).elim [] fun m => specDaysM y m yn mn mch
  | .file _ _ _ => []

/-- The qualifying day directories below one year directory. -/
def specMonthsM (y : Int) (yn : String) (children : List FSEntry) :
    List DateEntry :=
  children.flatMap (specMonthEntry y yn)

/-- Per the spec, what one entry of the sessions root contributes. -/
def specYearEntry (e : FSEntry) : List DateEntry :=
  match e with
  | .dir yn ych => (pyInt yn).elim [] fun y => specMonthsM y yn ych
  | .file _ _ _ => []

/-- All qualifying day directories of the tree, in scan order: exactly
those whose year/month/day names are numeric and which hold at least one
session file. -/
def specDays (root : List FSEntry) : List DateEntry :=
  root.flatMap specYearEntry

theorem scanDays_eq (y m : Int) (yn mn : String) (children : List FSEntry)
    (h : ∀ e ∈ specDaysM y m yn mn children, validDate e.y e.m e.d = true) :
    scanDays y m yn mn children = some (specDaysM y m yn mn children) := by
  induction children with
  | nil => rfl
  | cons e rest ih =>
    have hrest := ih fun x hx => h x (by
      simp only [specDaysM, List.flatMap_cons, List.mem_append] at *
      exact .inr hx)
    cases e with
    | file n mt c =>
      simpa [scanDays, specDaysM, List.flatMap_cons, specDayEntry] using hrest
    | dir dn dch =>
      simp only [scanDays, specDaysM, List.flatMap_cons, specDayEntry]
      rcases hpi : pyInt dn with _ | d
      · simpa using hrest
      · simp only [Option.elim_some]
        by_cases hlen : (sessionFiles dch).length = 0
        · simp [hlen, hrest, specDaysM]
        · have hval : validDate y m d = true := by
            have : mkDateEntry y m d yn mn dn (sessionFiles dch).length ∈
                specDaysM y m yn mn (.dir dn dch :: rest) := by
              simp [specDaysM, List.flatMap_cons, specDayEntry, hpi, hlen]
            exact h _ this
          simp [hlen, hval, hrest, specDaysM]



theorem scanMonths_eq (y : Int) (yn : String) (children : List FSEntry)
    (h : ∀ e ∈ specMonthsM y yn children, validDate e.y e.m e.d = true) :
    scanMonths y yn children = some (specMonthsM y yn children) := by
  induction children with
  | nil => rfl
  | cons e rest ih =>
    have hrest := ih fun x hx => h x (by
      simp only [specMonthsM, List.flatMap_cons, List.mem_append] at *
      exact .inr hx)
    cases e with
    | file n mt c =>
      simpa [scanMonths, specMonthsM, List.flatMap_cons, specMonthEntry]
        using hrest
    | dir mn mch =>
      simp only [scanMonths, specMonthsM, List.flatMap_cons, specMonthEntry]
      rcases hpi : pyInt mn with _ | m
      · simpa using hrest
      · simp only [Option.elim_some]
        have hdays : scanDays y m yn mn mch
            = some (specDaysM y m yn mn mch) := by
          apply scanDays_eq
          intro x hx
          apply h x
          simp [specMonthsM, List.flatMap_cons, specMonthEntry, hpi,
            List.mem_append, hx]
        rw [hdays, hrest]
        rfl

theorem scanYears_eq (root : List FSEntry)
    (h : ∀ e ∈ specDays root, validDate e.y e.m e.d = true) :
    scanYears root = some (specDays root) := by
  induction root with
  | nil => rfl
  | cons e rest ih =>
    have hrest := ih fun x hx => h x (by
      simp only [specDays, List.flatMap_cons, List.mem_append] at *
      exact .inr hx)
    cases e with
    | file n mt c =>
      simpa [scanYears, specDays, List.flatMap_cons, specYearEntry] using hrest
    | dir yn ych =>
      simp only [scanYears, specDays, List.flatMap_cons, specYearEntry]
      rcases hpi : pyInt yn with _ | y
      · simpa using hrest
      · simp only [Option.elim_some]
        have hmonths : scanMonths y yn ych = some (specMonthsM y yn ych) := by
          apply scanMonths_eq
          intro x hx
          apply h x
          simp [specDays, List.flatMap_cons, specYearEntry, hpi,
            List.mem_append, hx]
        rw [hmonths, hrest]
        rfl

/-- A descending-sorted list of entries with pairwise-distinct keys is
strictly descending. -/
theorem pairwise_lt_of_sorted_nodup (l : List DateEntry)
    (hs : l.Pairwise (fun a b => DateEntry.key b ≤ DateEntry.key a))
    (hn : (l.map DateEntry.key).Nodup) :
    l.Pairwise (fun a b => DateEntry.key b < DateEntry.key a) := by
  have hn' : l.Pairwise (fun a b => DateEntry.key a ≠ DateEntry.key b) :=
    List.pairwise_map.mp hn
  exact (hs.and hn').imp fun h => lt_of_le_of_ne h.1 h.2.symm



/-- Claim C6, amended: provided every all-numeric day path of the tree
forms a valid calendar date and distinct qualifying day directories
resolve to distinct dates, `get_dates` succeeds and returns exactly the
day directories with all-numeric year/month/day names and at least one
session file — so a directory with a non-numeric segment or with zero
session files never appears — sorted strictly by descending calendar
date.  (A numeric but invalid date, e.g. a month directory named `13`,
makes the Python original raise `ValueError` instead of returning, and
aliased numeric names such as `7` and `07` give equal dates, leaving the
order only weakly descending: see the counterexample.) -/
theorem c6_amended (root : List FSEntry)
    (H1 : ∀ e ∈ specDays root, validDate e.y e.m e.d = true)
    (H2 : ((specDays root).map DateEntry.key).Nodup) :
    ∃ l, get_datesFull root = some l ∧
      l.Perm (specDays root) ∧
      l.Pairwise (fun a b => DateEntry.key b < DateEntry.key a) ∧
      get_dates root = some (l.map fun e => (e.label, e.path)) := by
  haveI hTot : IsTotal DateEntry (fun a b => DateEntry.key b ≤ DateEntry.key a) :=
    ⟨fun a b => le_total _ _⟩
  haveI hTrans : IsTrans DateEntry (fun a b => DateEntry.key b ≤ DateEntry.key a) :=
    ⟨fun a b c hab hbc => le_trans hbc hab⟩
  have hscan : scanYears root = some (specDays root) := scanYears_eq root H1
  have hperm : (sortDateEntries (specDays root)).Perm (specDays root) :=
    List.perm_insertionSort _ _
  refine ⟨sortDateEntries (specDays root), ?_, hperm, ?_, ?_⟩
  · simp [get_datesFull, hscan]
  · apply pairwise_lt_of_sorted_nodup
    · exact List.sorted_insertionSort _ _
    · exact ((hperm.map DateEntry.key).nodup_iff).mpr H2
  · simp [get_dates, get_datesFull, hscan]

/-- A day directory content with one session file. -/
def c6SessionFile : FSEntry := .file "s.jsonl" ⟨2025, 1, 1, 0, 0, 0, 0⟩ (some [])

/-- A tree with a numeric but invalid month directory (`13`) holding a
day of session files. -/
def c6BadRoot : List FSEntry :=
  [.dir "2025" [.dir "13" [.dir "01" [c6SessionFile]]]]

/-- A tree where the aliased numeric day names `7` and `07` denote the
same calendar date. -/
def c6DupRoot : List FSEntry :=
  [.dir "2025" [.dir "09" [.dir "7" [c6SessionFile], .dir "07" [c6SessionFile]]]]

/-- Claim C6 is false as stated, in two ways: on a tree whose only day
path is `2025/13/01` (numeric, with session files) `get_dates` raises —
`datetime(2025, 13, 1)` is a `ValueError` — instead of returning a list;
and on a tree with the aliased day names `7` and `07` under `2025/09` the
two entries carry the same calendar date, so the result is not
**strictly** descending. -/
theorem c6_counterexample :
    get_dates c6BadRoot = none ∧
    ((get_datesFull c6DupRoot).getD []).map DateEntry.key
      = [20250907, 20250907] := by
  refine ⟨by decide, by decide⟩

/-- A well-formed two-day tree: `2025/09/07` (one session) and
`2025/10/01` (two sessions), listed out of date order in the tree. -/
def c6WitnessRoot : List FSEntry :=
  [.dir "2025"
    [.dir "09" [.dir "07" [c6SessionFile]],
     .dir "10" [.dir "01" [c6SessionFile,
       .file "t.jsonl" ⟨2025, 1, 1, 0, 0, 0, 0⟩ (some [])]],
     .dir "notes" [.dir "01" [c6SessionFile]],
     .dir "11" [.dir "05" []]]]

theorem c6_witness :
    (∀ e ∈ specDays c6WitnessRoot, validDate e.y e.m e.d = true) ∧
    ((specDays c6WitnessRoot).map DateEntry.key).Nodup ∧
    (∃ l, get_datesFull c6WitnessRoot = some l ∧
      l.Perm (specDays c6WitnessRoot) ∧
      l.Pairwise (fun a b => DateEntry.key b < DateEntry.key a) ∧
      get_dates c6WitnessRoot = some (l.map fun e => (e.label, e.path))) :=
  ⟨by decide, by decide, c6_amended c6WitnessRoot (by decide) (by decide)⟩


end Cohistory
